import Mathlib

/-!
Verification of the MLI (mean linear intercept) analysis backend.

This file gives a shallow embedding of the analysis pipeline in
`src/backend/mli_analysis.py` and of the batch loop of the `analyze`
endpoint in `src/backend/main.py`, and proves (or refutes) the frozen
claims about them.

Conventions of the embedding:
* Python floats are modelled by `ℚ`; Python ints by `ℤ` or `ℕ`.
* Python `round` (round half to even, "banker's rounding") is modelled
  by `pyRound` below.
* Fallible code (`raise ImageProcessingError`) is modelled with
  `Except String`, the error string being the exception message.
* OpenCV / skimage primitives that the repository calls but does not
  define (image decoding, colour conversion, blurring, Otsu threshold,
  drawing, PNG encoding) are abstracted as fields of `CvPrims`; the
  tissue mask itself is concrete (`List (List Bool)`), so that sampling
  along measurement lines and intercept counting are fully concrete.
-/

namespace MLM

/-- Python 3 `round` on a rational: round to the nearest integer,
ties going to the even integer. -/
def pyRound (q : ℚ) : ℤ :=
  if Int.fract q < 1 / 2 then ⌊q⌋
  else if 1 / 2 < Int.fract q then ⌊q⌋ + 1
  else if ⌊q⌋ % 2 = 0 then ⌊q⌋ else ⌊q⌋ + 1

/-- Structure `AnalysisConfigData` from mli_analysis.py (lines 14-23). -/
structure AnalysisConfigData where
  scale_um_per_pixel : ℚ
  line_length_um_horizontal : ℚ
  line_length_um_vertical : ℚ
  n_lines_horizontal : ℤ
  n_lines_vertical : ℤ
  sigma_denoise : ℚ
  min_area : ℤ
  magnification : String

/-- Structure `LineMetrics` from mli_analysis.py (lines 26-34).  A `none` value of
`mean_linear_intercept_um` embeds Python's `None`. -/
structure LineMetrics where
  line_number : ℕ
  horizontal_intercepts : ℕ
  vertical_intercepts : ℕ
  horizontal_length_um : ℚ
  vertical_length_um : ℚ
  total_line_length_um : ℚ
  mean_linear_intercept_um : Option ℚ
deriving DecidableEq

/-- Structure `MLIImageMetrics` from mli_analysis.py (lines 37-42). -/
structure MLIImageMetrics where
  lines : List LineMetrics
  average_mli_um : Option ℚ
  processed_image_base64 : String
  threshold_image_base64 : String
deriving DecidableEq

/-- Function `_auto_positions` from mli_analysis.py (lines 68-72):
`step = length / (count + 1)`, positions `int(round(step * (index + 1)))`
for `index in range(count)`; empty when `count <= 0`. -/
def _auto_positions (length : ℕ) (count : ℤ) : List ℤ :=
  if count ≤ 0 then []
  else
    let step : ℚ := (length : ℚ) / ((count : ℚ) + 1)
    (List.range count.toNat).map (fun (index : ℕ) => pyRound (step * ((index : ℚ) + 1)))

/-- NumPy `np.diff` on a list of integers: `diff[i] = xs[i+1] - xs[i]`. -/
def npDiff (xs : List ℤ) : List ℤ :=
  (xs.tail.zip xs).map (fun p => p.1 - p.2)

/-- NumPy `np.where(xs != 0)[0]`: the indices of the nonzero entries. -/
def npWhereNonzero (xs : List ℤ) : List ℕ :=
  (List.range xs.length).filter (fun i => decide (xs.getD i 0 ≠ 0))

/-- Function `_count_intercepts` from mli_analysis.py (lines 75-81): boolean mask
samples along a line; `active = samples > 0` is the samples themselves,
`transitions = np.diff(active.astype(int8))`,
`indices = np.where(transitions != 0)[0] + 1`; the result is
`(indices.size, indices)`, and `(0, [])` on empty input. -/
def _count_intercepts (samples : List Bool) : ℕ × List ℕ :=
  if samples.length = 0 then (0, [])
  else
    let active : List ℤ := samples.map (fun b => if b then 1 else 0)
    let transitions := npDiff active
    let indices := (npWhereNonzero transitions).map (fun i => i + 1)
    (indices.length, indices)

/-- One entry of `horizontal_data` / `vertical_data` in
`run_mli_analysis` (mli_analysis.py lines 129, 144): the dict
`{'intercepts': ..., 'length_um': ...}`. -/
structure LineDataEntry where
  intercepts : ℕ
  length_um : ℚ
deriving DecidableEq

/-- The aggregation loop of `run_mli_analysis` (mli_analysis.py lines
146-171): `line_count = max(H, V)` rows; row `idx` takes the horizontal
entry `idx` when present (else 0 intercepts / 0.0 length), likewise the
vertical entry; the per-row MLI is
`total_line_length_um / total_intercepts if total_intercepts else None`. -/
def buildLineMetrics (horizontal_data vertical_data : List LineDataEntry) : List LineMetrics :=
  let line_count := max horizontal_data.length vertical_data.length
  (List.range line_count).map (fun idx =>
    let horizontal : Option LineDataEntry := horizontal_data[idx]?
    let vertical : Option LineDataEntry := vertical_data[idx]?
    let horizontal_intercepts : ℕ := (horizontal.map (fun d => d.intercepts)).getD 0
    let vertical_intercepts : ℕ := (vertical.map (fun d => d.intercepts)).getD 0
    let horizontal_length_um : ℚ := (horizontal.map (fun d => d.length_um)).getD 0
    let vertical_length_um : ℚ := (vertical.map (fun d => d.length_um)).getD 0
    let total_line_length_um := horizontal_length_um + vertical_length_um
    let total_intercepts := horizontal_intercepts + vertical_intercepts
    let line_mli : Option ℚ :=
      if total_intercepts ≠ 0 then some (total_line_length_um / (total_intercepts : ℚ)) else none
    { line_number := idx + 1
      horizontal_intercepts := horizontal_intercepts
      vertical_intercepts := vertical_intercepts
      horizontal_length_um := horizontal_length_um
      vertical_length_um := vertical_length_um
      total_line_length_um := total_line_length_um
      mean_linear_intercept_um := line_mli })

/-- The image-level average of `run_mli_analysis` (mli_analysis.py lines
173-174): `valid_mli` is the list of defined per-row MLI values, and the
average is `np.mean(valid_mli)` (sum divided by count) when `valid_mli`
is nonempty, else `None`. -/
def averageMli (lines : List LineMetrics) : Option ℚ :=
  let valid_mli := lines.filterMap (fun line => line.mean_linear_intercept_um)
  if valid_mli.isEmpty then none
  else some (valid_mli.sum / (valid_mli.length : ℚ))

/-- The OpenCV / skimage primitives called by mli_analysis.py but not
defined in the repository.  `Img` is the type of colour images, `Gray`
of grayscale images; the tissue mask is concrete (`List (List Bool)`,
rows of pixels, `true` = tissue).  `imread` returning `none` embeds
`cv2.imread` returning `None`; `imencode_png` returning `none` embeds
`cv2.imencode` returning `success = False`. -/
structure CvPrims (Img Gray : Type) where
  imread : String → Option Img
  cvtColor_bgr2gray : Img → Gray
  gaussianBlur : Gray → ℚ → Gray
  threshold_otsu : Gray → ℚ
  mask_below : Gray → ℚ → List (List Bool)
  remove_small_objects : List (List Bool) → ℤ → List (List Bool)
  mask_to_bgr : List (List Bool) → Img
  cv_line : Img → (ℤ × ℤ) → (ℤ × ℤ) → (ℕ × ℕ × ℕ) → ℕ → Img
  cv_circle : Img → (ℤ × ℤ) → ℕ → (ℕ × ℕ × ℕ) → ℤ → Img
  cv_drawMarker : Img → (ℤ × ℤ) → (ℕ × ℕ × ℕ) → Img
  imencode_png : Img → Option (List ℕ)
  b64encode : List ℕ → String

/-- Function `_load_image_and_mask` from mli_analysis.py (lines 49-65): decode
the image (error when unreadable), grayscale, optional Gaussian blur
when `sigma_denoise > 0`, Otsu threshold, mask of pixels strictly below
the threshold, optional small-object removal when `min_area > 0`. -/
def _load_image_and_mask {Img Gray : Type} (prims : CvPrims Img Gray)
    (path : String) (config : AnalysisConfigData) :
    Except String (Img × List (List Bool)) :=
  match prims.imread path with
  | none => Except.error ("Unable to read image at " ++ path)
  | some image =>
    let gray := prims.cvtColor_bgr2gray image
    let gray := if 0 < config.sigma_denoise then prims.gaussianBlur gray config.sigma_denoise else gray
    let threshold := prims.threshold_otsu gray
    let tissue_mask := prims.mask_below gray threshold
    let tissue_mask :=
      if 0 < config.min_area then prims.remove_small_objects tissue_mask config.min_area
      else tissue_mask
    Except.ok (image, tissue_mask)

/-- Function `_encode_image_to_base64` from mli_analysis.py (lines 84-88). -/
def _encode_image_to_base64 {Img Gray : Type} (prims : CvPrims Img Gray)
    (image : Img) : Except String String :=
  match prims.imencode_png image with
  | none => Except.error "Unable to encode processed image to PNG"
  | some buffer => Except.ok (prims.b64encode buffer)

/-- Function `_draw_intercept_marker` from mli_analysis.py (lines 91-102):
outer ring, tilted cross, filled centre dot. -/
def _draw_intercept_marker {Img Gray : Type} (prims : CvPrims Img Gray)
    (canvas : Img) (point : ℤ × ℤ) : Img :=
  let canvas := prims.cv_circle canvas point 8 (40, 40, 40) 3
  let canvas := prims.cv_drawMarker canvas point (0, 255, 255)
  prims.cv_circle canvas point 4 (255, 0, 255) (-1)

/-- Sampling `mask[rr, cc]` for the horizontal line at row `y`
(`draw_line(y, 0, y, width - 1)`): the whole row `y` of the mask. -/
def sampleRow (mask : List (List Bool)) (y : ℤ) : List Bool :=
  mask.getD y.toNat []

/-- Sampling `mask[rr, cc]` for the vertical line at column `x`
(`draw_line(0, x, height - 1, x)`): the whole column `x` of the mask. -/
def sampleCol (mask : List (List Bool)) (x : ℤ) : List Bool :=
  mask.map (fun row => row.getD x.toNat false)

/-- Function `run_mli_analysis` from mli_analysis.py (lines 105-184): load and
segment, place the line grids, per horizontal line sample the mask row,
count intercepts, draw the line and its intercept markers on both
overlays and accumulate `{'intercepts', 'length_um'}`; likewise per
vertical line on mask columns; aggregate into `LineMetrics` rows
(`buildLineMetrics`), average the defined per-row MLI values
(`averageMli`), and base64-encode both overlays. -/
def run_mli_analysis {Img Gray : Type} (prims : CvPrims Img Gray)
    (path : String) (config : AnalysisConfigData) :
    Except String MLIImageMetrics :=
  match _load_image_and_mask prims path config with
  | Except.error e => Except.error e
  | Except.ok (image, mask) =>
    let height := mask.length
    let width := (mask.headD []).length
    let horizontal_positions := _auto_positions height config.n_lines_horizontal
    let vertical_positions := _auto_positions width config.n_lines_vertical
    let original_overlay := image
    let threshold_overlay := prims.mask_to_bgr mask
    let hstate := horizontal_positions.foldl
      (fun st y =>
        let samples := sampleRow mask y
        let counted := _count_intercepts samples
        let points : List (ℤ × ℤ) := counted.2.map (fun i => ((i : ℤ), y))
        let orig := prims.cv_line st.1 (0, y) ((width : ℤ) - 1, y) (0, 176, 255) 3
        let thr := prims.cv_line st.2.1 (0, y) ((width : ℤ) - 1, y) (0, 176, 255) 3
        let orig := points.foldl (fun c p => _draw_intercept_marker prims c p) orig
        let thr := points.foldl (fun c p => _draw_intercept_marker prims c p) thr
        (orig, thr, st.2.2 ++ [LineDataEntry.mk counted.1 config.line_length_um_horizontal]))
      (original_overlay, threshold_overlay, ([] : List LineDataEntry))
    let vstate := vertical_positions.foldl
      (fun st x =>
        let samples := sampleCol mask x
        let counted := _count_intercepts samples
        let points : List (ℤ × ℤ) := counted.2.map (fun i => (x, (i : ℤ)))
        let orig := prims.cv_line st.1 (x, 0) (x, (height : ℤ) - 1) (76, 255, 0) 3
        let thr := prims.cv_line st.2.1 (x, 0) (x, (height : ℤ) - 1) (76, 255, 0) 3
        let orig := points.foldl (fun c p => _draw_intercept_marker prims c p) orig
        let thr := points.foldl (fun c p => _draw_intercept_marker prims c p) thr
        (orig, thr, st.2.2 ++ [LineDataEntry.mk counted.1 config.line_length_um_vertical]))
      (hstate.1, hstate.2.1, ([] : List LineDataEntry))
    let horizontal_data := hstate.2.2
    let vertical_data := vstate.2.2
    let lines := buildLineMetrics horizontal_data vertical_data
    let average_mli := averageMli lines
    match _encode_image_to_base64 prims vstate.1 with
    | Except.error e => Except.error e
    | Except.ok processed_image_base64 =>
      match _encode_image_to_base64 prims vstate.2.1 with
      | Except.error e => Except.error e
      | Except.ok threshold_image_base64 =>
        Except.ok
          { lines := lines
            average_mli_um := average_mli
            processed_image_base64 := processed_image_base64
            threshold_image_base64 := threshold_image_base64 }

/-- One stored image record, as consumed by the `analyze` endpoint of
main.py (the fields of `ImageRecord` in storage.py it reads). -/
structure ImageRecord where
  image_id : String
  original_filename : String
  stored_path : String
deriving DecidableEq

/-- One entry of the `analyze` endpoint's per-image results
(`AnalysisImageResult` in storage.py, without the overlay fields). -/
structure AnalysisImageResult where
  image_id : String
  image_number : ℕ
  name : String
  average_mli_um : Option ℚ
  lines : List LineMetrics
deriving DecidableEq

/-- The batch loop of the `analyze` endpoint (main.py lines 130-164):
for each stored image in order, abort the whole request with an HTTP
error if the file is missing on disk, run `run_mli_analysis`, abort the
whole request with an HTTP error if it raises `ImageProcessingError`,
else append the image's result.  `pathExists` embeds
`image_path.exists()`; the error string is the HTTP error detail. -/
def analyzeLoop {Img Gray : Type} (prims : CvPrims Img Gray)
    (pathExists : String → Bool) (config : AnalysisConfigData) :
    ℕ → List ImageRecord → Except String (List AnalysisImageResult)
  | _, [] => Except.ok []
  | index, image :: rest =>
    if pathExists image.stored_path then
      match run_mli_analysis prims image.stored_path config with
      | Except.error e => Except.error e
      | Except.ok metrics =>
        match analyzeLoop prims pathExists config (index + 1) rest with
        | Except.error e => Except.error e
        | Except.ok results =>
          Except.ok
            ({ image_id := image.image_id
               image_number := index + 1
               name := image.original_filename
               average_mli_um := metrics.average_mli_um
               lines := metrics.lines } :: results)
    else Except.error ("Image not found on disk: " ++ image.stored_path)

/-- The images on which the `analyze` loop actually invokes
`run_mli_analysis`: loop execution stops at a missing file (before the
image is attempted) or at the first image whose analysis raises
(after that image is attempted). -/
def attemptedImages {Img Gray : Type} (prims : CvPrims Img Gray)
    (pathExists : String → Bool) (config : AnalysisConfigData) :
    List ImageRecord → List ImageRecord
  | [] => []
  | image :: rest =>
    if pathExists image.stored_path then
      match run_mli_analysis prims image.stored_path config with
      | Except.error _ => [image]
      | Except.ok _ => image :: attemptedImages prims pathExists config rest
    else []

/-- Modelled from the spec: `skimage.morphology.remove_small_objects`
(called at mli_analysis.py line 63) is a library function whose code is
not in the repository; per the spec ("remove connected components of
true-valued pixels smaller than min-area") it keeps exactly the
connected components of size at least `min_size`.  A mask is abstracted
by the list of its connected components, each a list of pixel
coordinates; the decomposition comes from the thresholded mask, which
does not depend on `min_area`. -/
def remove_small_objects_components
    (components : List (List (ℕ × ℕ))) (min_size : ℕ) : List (List (ℕ × ℕ)) :=
  components.filter (fun c => decide (min_size ≤ c.length))

/-- The small-object-removal step of `_load_image_and_mask`
(mli_analysis.py lines 62-63) on the component view of the mask:
removal runs only when `min_area > 0`. -/
def denoisedComponents
    (components : List (List (ℕ × ℕ))) (min_area : ℤ) : List (List (ℕ × ℕ)) :=
  if 0 < min_area then remove_small_objects_components components min_area.toNat
  else components

/-- The number of tissue (true) pixels of a mask given by its connected
components. -/
def tissuePixelCount (components : List (List (ℕ × ℕ))) : ℕ :=
  (components.map List.length).sum

/-- Trivial primitives over `Unit` images, used to evaluate the
orchestrator on concrete inputs: the image is read successfully exactly
when `readOk` holds of the path, and PNG encoding succeeds exactly when
`encodeOk` holds. -/
def unitPrims (readOk : String → Bool) (encodeOk : Bool) : CvPrims Unit Unit where
  imread := fun p => if readOk p then some () else none
  cvtColor_bgr2gray := fun _ => ()
  gaussianBlur := fun _ _ => ()
  threshold_otsu := fun _ => 0
  mask_below := fun _ _ => [[true, false]]
  remove_small_objects := fun m _ => m
  mask_to_bgr := fun _ => ()
  cv_line := fun i _ _ _ _ => i
  cv_circle := fun i _ _ _ _ => i
  cv_drawMarker := fun i _ _ => i
  imencode_png := fun _ => if encodeOk then some [0] else none
  b64encode := fun _ => "AA=="

/-- A concrete configuration used by the witnesses.  The requested line
counts are zero so that concrete runs of the orchestrator produce no
line rows (keeping witness evaluations small); the aggregator claims are
witnessed directly on `buildLineMetrics`. -/
def cfgEx : AnalysisConfigData where
  scale_um_per_pixel := 1
  line_length_um_horizontal := 100
  line_length_um_vertical := 50
  n_lines_horizontal := 0
  n_lines_vertical := 0
  sigma_denoise := 0
  min_area := 0
  magnification := "40x"

/-- The line row produced by the aggregator from one horizontal line of
length 100 with 2 intercepts and one vertical line of length 50 with 3
intercepts. -/
def rowEx : LineMetrics :=
  { line_number := 1, horizontal_intercepts := 2, vertical_intercepts := 3,
    horizontal_length_um := 100, vertical_length_um := 50,
    total_line_length_um := 150, mean_linear_intercept_um := some 30 }

/-- Row index 1 produced by the aggregator from three horizontal lines
and a single vertical line: the vertical side is absent, so its
contributions are zero. -/
def rowEx5 : LineMetrics :=
  { line_number := 2, horizontal_intercepts := 2, vertical_intercepts := 0,
    horizontal_length_um := 10, vertical_length_um := 0,
    total_line_length_um := 10, mean_linear_intercept_um := some 5 }

/-- A concrete stored-image record (readable file). -/
def recA : ImageRecord :=
  { image_id := "id-a", original_filename := "a.png", stored_path := "pa" }

/-- A concrete stored-image record whose image fails to decode. -/
def recB : ImageRecord :=
  { image_id := "id-b", original_filename := "b.png", stored_path := "pb" }

/-- A concrete stored-image record after the failing one. -/
def recC : ImageRecord :=
  { image_id := "id-c", original_filename := "c.png", stored_path := "pc" }

/-- Primitives for which reading succeeds for every path except `pb`. -/
def prims8 : CvPrims Unit Unit := unitPrims (fun p => p != "pb") true

/-- The metrics produced by a successful run of the orchestrator under
`unitPrims` with the zero-line-count configuration `cfgEx`. -/
def mEx : MLIImageMetrics :=
  { lines := [], average_mli_um := none,
    processed_image_base64 := "AA==", threshold_image_base64 := "AA==" }

/-! Helper lemmas about the embedded definitions. -/

lemma npDiff_length (xs : List ℤ) : (npDiff xs).length = xs.length - 1 := by
  simp [npDiff]

lemma npDiff_getD (xs : List ℤ) (i : ℕ) (h : i < (npDiff xs).length) :
    (npDiff xs).getD i 0 = xs.getD (i + 1) 0 - xs.getD i 0 := by
  have hlen : (npDiff xs).length = xs.length - 1 := npDiff_length xs
  have h1 : i + 1 < xs.length := by omega
  have h0 : i < xs.length := by omega
  have htail : i < xs.tail.length := by simp; omega
  rw [List.getD_eq_getElem _ _ h, List.getD_eq_getElem _ _ h1, List.getD_eq_getElem _ _ h0]
  simp [npDiff, List.getElem_zip, List.getElem_tail]

lemma getD_indicator (s : List Bool) (j : ℕ) (h : j < s.length) :
    (s.map (fun b => if b then (1 : ℤ) else 0)).getD j 0 =
      if s.getD j false then 1 else 0 := by
  rw [List.getD_eq_getElem _ _ (by simpa using h), List.getD_eq_getElem _ _ h, List.getElem_map]

lemma le_pyRound (q : ℚ) : q - 1 / 2 ≤ (pyRound q : ℚ) := by
  have hfr : q - Int.fract q = (⌊q⌋ : ℚ) := Int.self_sub_fract q
  have h0 : 0 ≤ Int.fract q := Int.fract_nonneg q
  have h1 : Int.fract q < 1 := Int.fract_lt_one q
  unfold pyRound
  split_ifs <;> push_cast <;> linarith

lemma pyRound_le (q : ℚ) : (pyRound q : ℚ) ≤ q + 1 / 2 := by
  have hfr : q - Int.fract q = (⌊q⌋ : ℚ) := Int.self_sub_fract q
  have h0 : 0 ≤ Int.fract q := Int.fract_nonneg q
  have h1 : Int.fract q < 1 := Int.fract_lt_one q
  unfold pyRound
  split_ifs <;> push_cast <;> linarith

lemma pyRound_intCast (n : ℤ) : pyRound (n : ℚ) = n := by
  unfold pyRound
  rw [Int.fract_intCast, if_pos (by norm_num)]
  exact Int.floor_intCast n

lemma pyRound_eq_of (q : ℚ) (f : ℤ) (r : ℚ) (hq : q = f + r) (h0 : 0 ≤ r) (h1 : r < 1) :
    pyRound q = if r < 1 / 2 then f else if 1 / 2 < r then f + 1
      else if f % 2 = 0 then f else f + 1 := by
  have hfloor : ⌊q⌋ = f := by
    rw [hq, Int.floor_int_add, Int.floor_eq_zero_iff.mpr ⟨h0, h1⟩, add_zero]
  have hfr : Int.fract q = r := by
    rw [Int.fract, hfloor, hq]; ring
  unfold pyRound
  rw [hfr, hfloor]

lemma run_prims8_ok (p : String) (hp : (p != "pb") = true) :
    run_mli_analysis prims8 p cfgEx = Except.ok mEx := by
  have hp2 : p ≠ "pb" := by simpa using hp
  norm_num [run_mli_analysis, _load_image_and_mask, prims8, unitPrims, cfgEx, hp2,
    _auto_positions, _encode_image_to_base64, buildLineMetrics, averageMli, mEx]

lemma run_prims8_error :
    run_mli_analysis prims8 "pb" cfgEx = Except.error "Unable to read image at pb" := by
  have h : run_mli_analysis prims8 "pb" cfgEx =
      Except.error ("Unable to read image at " ++ "pb") := by
    norm_num [run_mli_analysis, _load_image_and_mask, prims8, unitPrims, cfgEx]
  rw [h]
  rfl

/-! The claims. -/

/-- C1.  For every line row produced by the aggregator, the total length
is the horizontal length plus the vertical length (an absent side
contributes 0 by construction of the row), and when the total intercept
count (horizontal count plus vertical count) is positive the per-row MLI
is exactly the total length divided by the total intercepts; in
particular horizontal length 100 and vertical length 50 with 2 and 3
intercepts give the single row with total length 150, total intercepts
5 and per-row MLI exactly 30. -/
theorem c1_per_row_totals_and_mli :
    (∀ (hd vd : List LineDataEntry) (row : LineMetrics), row ∈ buildLineMetrics hd vd →
      row.total_line_length_um = row.horizontal_length_um + row.vertical_length_um ∧
      (0 < row.horizontal_intercepts + row.vertical_intercepts →
        row.mean_linear_intercept_um =
          some (row.total_line_length_um /
            (((row.horizontal_intercepts + row.vertical_intercepts : ℕ)) : ℚ)))) ∧
    buildLineMetrics [⟨2, 100⟩] [⟨3, 50⟩] = [rowEx] := by
  constructor
  · intro hd vd row hmem
    simp only [buildLineMetrics, List.mem_map, List.mem_range] at hmem
    obtain ⟨idx, hidx, rfl⟩ := hmem
    refine ⟨rfl, fun h => ?_⟩
    simp only at h ⊢
    rw [if_pos (by omega)]
  · norm_num [buildLineMetrics, List.range_succ, rowEx]

/-- Witness for C1: the aggregator applied to one horizontal entry
(2 intercepts, length 100) and one vertical entry (3 intercepts, length
50) yields the row whose MLI is its total length over its total
intercepts, which is exactly 30. -/
theorem c1_per_row_witness :
    rowEx.mean_linear_intercept_um =
      some (rowEx.total_line_length_um /
        ((rowEx.horizontal_intercepts + rowEx.vertical_intercepts : ℕ) : ℚ)) := by
  have hmem : rowEx ∈ buildLineMetrics [⟨2, 100⟩] [⟨3, 50⟩] := by
    norm_num [buildLineMetrics, List.range_succ, rowEx]
  exact (c1_per_row_totals_and_mli.1 [⟨2, 100⟩] [⟨3, 50⟩] rowEx hmem).2
    (by norm_num [rowEx])

/-- C2.  A line row whose total intercept count is zero has an undefined
(`none`) per-row MLI, which is in particular not `some 0`; the
image-level average is the arithmetic mean of exactly the defined
per-row values (rows with `none` are excluded by the `filterMap`), and
is itself `none` when no row has a defined MLI. -/
theorem c2_zero_intercepts_undefined_mli :
    (∀ (hd vd : List LineDataEntry) (row : LineMetrics), row ∈ buildLineMetrics hd vd →
      row.horizontal_intercepts + row.vertical_intercepts = 0 →
        row.mean_linear_intercept_um = none ∧ row.mean_linear_intercept_um ≠ some 0) ∧
    (∀ lines : List LineMetrics,
      averageMli lines =
        if lines.filterMap (fun line => line.mean_linear_intercept_um) = [] then none
        else some ((lines.filterMap (fun line => line.mean_linear_intercept_um)).sum /
          ((lines.filterMap (fun line => line.mean_linear_intercept_um)).length : ℚ))) ∧
    (∀ lines : List LineMetrics,
      (∀ row ∈ lines, row.mean_linear_intercept_um = none) → averageMli lines = none) := by
  refine ⟨?_, ?_, ?_⟩
  · intro hd vd row hmem h0
    simp only [buildLineMetrics, List.mem_map, List.mem_range] at hmem
    obtain ⟨idx, hidx, rfl⟩ := hmem
    simp only at h0 ⊢
    rw [if_neg (by omega)]
    exact ⟨rfl, by simp⟩
  · intro lines
    simp [averageMli, List.isEmpty_iff]
  · intro lines hall
    simp [averageMli, List.isEmpty_iff, List.filterMap_eq_nil_iff.mpr hall]

/-- Witness for C2: an aggregator input whose only row has zero
intercepts yields an image-level average of `none`, not `some 0`. -/
theorem c2_zero_intercepts_witness :
    averageMli (buildLineMetrics [⟨0, 100⟩] []) = none :=
  c2_zero_intercepts_undefined_mli.2.2 (buildLineMetrics [⟨0, 100⟩] []) (by decide)

/-- C3.  The intercept counter returns exactly the indices `i > 0` where
`samples[i]` differs from `samples[i - 1]`, the count is the number of
such indices, the empty input yields `(0, [])`, and the sequence
tissue, tissue, background, background, tissue yields count 2 with
transition indices `[2, 4]`. -/
theorem c3_intercept_counter_spec :
    (∀ samples : List Bool,
      (_count_intercepts samples).2 =
        (List.range samples.length).filter
          (fun i => decide (0 < i) && decide (samples.getD i false ≠ samples.getD (i - 1) false)) ∧
      (_count_intercepts samples).1 = (_count_intercepts samples).2.length) ∧
    _count_intercepts [] = (0, []) ∧
    _count_intercepts [true, true, false, false, true] = (2, [2, 4]) := by
  refine ⟨?_, by decide, by decide⟩
  intro samples
  constructor
  · match samples with
    | [] => simp [_count_intercepts]
    | a :: l =>
      rw [_count_intercepts, if_neg (by simp)]
      rw [show (a :: l).length = l.length + 1 by simp, List.range_succ_eq_map,
        List.filter_cons]
      simp only [Nat.lt_irrefl, decide_False, Bool.false_and, Bool.false_eq_true, if_false]
      rw [List.filter_map]
      simp only [npWhereNonzero]
      have hlen : (npDiff ((a :: l).map (fun b => if b then (1 : ℤ) else 0))).length
          = l.length := by
        rw [npDiff_length]; simp
      rw [hlen]
      have hfil : List.filter
            (fun i => decide
              ((npDiff ((a :: l).map (fun b => if b then (1 : ℤ) else 0))).getD i 0 ≠ 0))
            (List.range l.length) =
          List.filter
            ((fun i => decide (0 < i) &&
              decide ((a :: l).getD i false ≠ (a :: l).getD (i - 1) false)) ∘ Nat.succ)
            (List.range l.length) := by
        apply List.filter_congr
        intro i hi
        have hi2 : i < l.length := List.mem_range.mp hi
        simp only [Function.comp_apply, Nat.succ_eq_add_one, Nat.add_sub_cancel,
          Nat.zero_lt_succ, decide_True, Bool.true_and]
        rw [npDiff_getD _ _ (by rw [hlen]; exact hi2)]
        rw [getD_indicator _ _ (by simp; omega), getD_indicator _ _ (by simp; omega)]
        cases hb1 : (a :: l).getD (i + 1) false <;>
          cases hb2 : (a :: l).getD i false <;> simp
      rw [hfil]
  · rw [_count_intercepts]
    split
    · rfl
    · rfl

/-- Counterexample for C4 as stated.  For axis length `L = 1` and count
`N = 3` the positions are `[round 1/4, round 1/2, round 3/4] =
[0, 0, 1]` (Python rounds halves to even): they are neither strictly
between 0 and `L` (0 is returned) nor strictly increasing (0 repeats). -/
theorem c4_grid_placement_counterexample :
    _auto_positions 1 3 = [0, 0, 1] ∧
    ¬ (∀ p ∈ _auto_positions 1 3, 0 < p ∧ p < (1 : ℤ)) ∧
    ¬ List.Pairwise (fun p q => p < q) (_auto_positions 1 3) := by
  have h : _auto_positions 1 3 = [0, 0, 1] := by
    rw [_auto_positions, if_neg (by norm_num)]
    have h0 : pyRound ((1 : ℚ) / 4) = 0 := by
      rw [pyRound_eq_of ((1 : ℚ) / 4) 0 (1 / 4) (by norm_num) (by norm_num) (by norm_num)]
      norm_num
    have h1 : pyRound ((1 : ℚ) / 2) = 0 := by
      rw [pyRound_eq_of ((1 : ℚ) / 2) 0 (1 / 2) (by norm_num) (by norm_num) (by norm_num)]
      norm_num
    have h2 : pyRound ((3 : ℚ) / 4) = 1 := by
      rw [pyRound_eq_of ((3 : ℚ) / 4) 0 (3 / 4) (by norm_num) (by norm_num) (by norm_num)]
      norm_num
    rw [show ((3 : ℤ).toNat) = 3 from rfl, show List.range 3 = [0, 1, 2] from rfl]
    simp only [List.map_cons, List.map_nil]
    norm_num [h0, h1, h2]
  refine ⟨h, ?_, ?_⟩
  · rw [h]
    intro hall
    have := hall 0 (by simp)
    omega
  · rw [h]
    intro hp
    simp only [List.pairwise_cons, List.mem_cons] at hp
    have := hp.1 0 (by simp)
    omega

/-- C4 as amended.  For every axis length `L > 0` and count `N`: the
result is empty when `N ≤ 0`; otherwise it has exactly `N` integer
positions with position `i` equal to `round(L / (N + 1) * (i + 1))`
(Python rounding, halves to even); and when additionally `N + 1 ≤ L`
(at least one pixel of spacing) all positions lie strictly between `0`
and `L` and are strictly increasing.  The strictness proviso
`N + 1 ≤ L` is forced by the counterexample `L = 1`, `N = 3`. -/
theorem c4_grid_placement_amended (L : ℕ) (N : ℤ) (hL : 0 < L) :
    (N ≤ 0 → _auto_positions L N = []) ∧
    (0 < N → (_auto_positions L N).length = N.toNat ∧
      ∀ i, i < N.toNat →
        (_auto_positions L N)[i]? =
          some (pyRound ((L : ℚ) / ((N : ℚ) + 1) * ((i : ℚ) + 1)))) ∧
    (0 < N → (N : ℤ) + 1 ≤ (L : ℤ) →
      (∀ p ∈ _auto_positions L N, 0 < p ∧ p < (L : ℤ)) ∧
      List.Pairwise (fun p q => p < q) (_auto_positions L N)) := by
  refine ⟨fun h => by rw [_auto_positions, if_pos h], ?_, ?_⟩
  · intro hN
    rw [_auto_positions, if_neg (by omega)]
    refine ⟨by simp, ?_⟩
    intro i hi
    simp [List.getElem?_map, List.getElem?_range hi]
  · intro hN hNL
    have hQN : (1 : ℚ) ≤ (N : ℚ) := by exact_mod_cast hN
    have hN1pos : (0 : ℚ) < (N : ℚ) + 1 := by linarith
    have hQNL : (N : ℚ) + 1 ≤ (L : ℚ) := by exact_mod_cast hNL
    set step : ℚ := (L : ℚ) / ((N : ℚ) + 1) with hstep
    have hstep1 : 1 ≤ step := by
      rw [hstep, le_div_iff₀ hN1pos, one_mul]; exact hQNL
    have hstepN : step * (N : ℚ) = (L : ℚ) - step := by
      rw [hstep]; field_simp; ring
    have hpos_eq : _auto_positions L N =
        (List.range N.toNat).map (fun (index : ℕ) => pyRound (step * ((index : ℚ) + 1))) := by
      rw [_auto_positions, if_neg (by omega)]
    have key : ∀ i : ℕ, i < N.toNat →
        (1 : ℚ) ≤ step * ((i : ℚ) + 1) ∧ step * ((i : ℚ) + 1) ≤ (L : ℚ) - step := by
      intro i hi
      have hi1 : (1 : ℚ) ≤ (i : ℚ) + 1 := by
        have h0i : (0 : ℚ) ≤ (i : ℚ) := Nat.cast_nonneg i
        linarith
      have hiN : (i : ℚ) + 1 ≤ (N : ℚ) := by
        have hle : (i : ℤ) + 1 ≤ N := by omega
        exact_mod_cast hle
      constructor
      · nlinarith
      · calc step * ((i : ℚ) + 1) ≤ step * (N : ℚ) := by nlinarith
          _ = (L : ℚ) - step := hstepN
    constructor
    · intro p hp
      rw [hpos_eq] at hp
      rw [List.mem_map] at hp
      obtain ⟨i, hi, rfl⟩ := hp
      have hi2 : i < N.toNat := List.mem_range.mp hi
      obtain ⟨hk1, hk2⟩ := key i hi2
      have hlow := le_pyRound (step * ((i : ℚ) + 1))
      have hhigh := pyRound_le (step * ((i : ℚ) + 1))
      constructor
      · have hq : (0 : ℚ) < (pyRound (step * ((i : ℚ) + 1)) : ℚ) := by linarith
        exact_mod_cast hq
      · have hq : ((pyRound (step * ((i : ℚ) + 1))) : ℚ) < (L : ℚ) := by linarith
        exact_mod_cast hq
    · rw [hpos_eq]
      rw [List.pairwise_map]
      have hmono : ∀ a b : ℕ, a < b →
          pyRound (step * ((a : ℚ) + 1)) < pyRound (step * ((b : ℚ) + 1)) := by
        intro a b hab
        rcases eq_or_lt_of_le hstep1 with heq | hlt
        · have ha : step * ((a : ℚ) + 1) = (((a : ℤ) + 1 : ℤ) : ℚ) := by
            rw [← heq, one_mul]; push_cast; ring
          have hb : step * ((b : ℚ) + 1) = (((b : ℤ) + 1 : ℤ) : ℚ) := by
            rw [← heq, one_mul]; push_cast; ring
          rw [ha, hb, pyRound_intCast, pyRound_intCast]
          omega
        · have hab1 : (a : ℚ) + 1 + 1 ≤ (b : ℚ) + 1 := by
            have hz : (a : ℤ) + 1 ≤ b := by omega
            have h2 : ((a : ℚ)) + 1 ≤ (b : ℚ) := by exact_mod_cast hz
            linarith
          have hstep0 : (0 : ℚ) < step := by linarith
          have hmul : step * ((a : ℚ) + 1) + step ≤ step * ((b : ℚ) + 1) := by nlinarith
          have hlow := le_pyRound (step * ((b : ℚ) + 1))
          have hhigh := pyRound_le (step * ((a : ℚ) + 1))
          have hq : ((pyRound (step * ((a : ℚ) + 1))) : ℚ) <
              ((pyRound (step * ((b : ℚ) + 1))) : ℚ) := by linarith
          exact_mod_cast hq
      exact List.Pairwise.imp (fun hab => hmono _ _ hab) (List.pairwise_lt_range N.toNat)

/-- Witness for the amended C4: at `L = 10`, `N = 4` the hypotheses
`0 < L`, `0 < N`, `N + 1 ≤ L` all hold and the positions have length 4,
lie strictly inside `(0, 10)` and increase strictly. -/
theorem c4_grid_placement_witness :
    (_auto_positions 10 4).length = (4 : ℤ).toNat ∧
    (∀ p ∈ _auto_positions 10 4, 0 < p ∧ p < (10 : ℤ)) ∧
    List.Pairwise (fun p q => p < q) (_auto_positions 10 4) := by
  refine ⟨((c4_grid_placement_amended 10 4 (by norm_num)).2.1 (by norm_num)).1, ?_, ?_⟩
  · exact ((c4_grid_placement_amended 10 4 (by norm_num)).2.2 (by norm_num) (by norm_num)).1
  · exact ((c4_grid_placement_amended 10 4 (by norm_num)).2.2 (by norm_num) (by norm_num)).2

/-- C5.  The aggregator produces exactly `max H V` rows; row `i` is
numbered `i + 1` and pairs horizontal entry `i` when present (else the
zero stand-in, via `Option.getD`) with vertical entry `i` likewise; in
particular with 3 horizontal entries and 1 vertical entry there are
exactly 3 rows and rows at indices 1 and 2 have zero vertical intercepts
and zero vertical length. -/
theorem c5_pairing_rule :
    (∀ hd vd : List LineDataEntry,
      (buildLineMetrics hd vd).length = max hd.length vd.length ∧
      ∀ i (row : LineMetrics), (buildLineMetrics hd vd)[i]? = some row →
        row.line_number = i + 1 ∧
        row.horizontal_intercepts = (hd[i]?.map (fun d => d.intercepts)).getD 0 ∧
        row.vertical_intercepts = (vd[i]?.map (fun d => d.intercepts)).getD 0 ∧
        row.horizontal_length_um = (hd[i]?.map (fun d => d.length_um)).getD 0 ∧
        row.vertical_length_um = (vd[i]?.map (fun d => d.length_um)).getD 0) ∧
    (buildLineMetrics [⟨1, 10⟩, ⟨2, 10⟩, ⟨0, 10⟩] [⟨4, 7⟩]).length = 3 ∧
    (buildLineMetrics [⟨1, 10⟩, ⟨2, 10⟩, ⟨0, 10⟩] [⟨4, 7⟩])[1]?.map
      (fun r => (r.vertical_intercepts, r.vertical_length_um)) = some (0, 0) ∧
    (buildLineMetrics [⟨1, 10⟩, ⟨2, 10⟩, ⟨0, 10⟩] [⟨4, 7⟩])[2]?.map
      (fun r => (r.vertical_intercepts, r.vertical_length_um)) = some (0, 0) := by
  refine ⟨?_, ?_, ?_, ?_⟩
  · intro hd vd
    refine ⟨by simp [buildLineMetrics], ?_⟩
    intro i row hrow
    simp only [buildLineMetrics, List.getElem?_map] at hrow
    rcases hlt : (List.range (max hd.length vd.length))[i]? with _ | j
    · rw [hlt] at hrow
      simp only [Option.map_none'] at hrow
      cases hrow
    · rw [hlt] at hrow
      have hj : j = i := by
        rcases Nat.lt_or_ge i (max hd.length vd.length) with hi | hi
        · rw [List.getElem?_range hi] at hlt; exact (Option.some_injective _ hlt).symm
        · rw [List.getElem?_eq_none (by simpa using hi)] at hlt; cases hlt
      subst hj
      simp only [Option.map_some'] at hrow
      obtain rfl := (Option.some_injective _ hrow).symm
      exact ⟨rfl, rfl, rfl, rfl, rfl⟩
  · norm_num [buildLineMetrics]
  · norm_num [buildLineMetrics, List.range_succ]
  · norm_num [buildLineMetrics, List.range_succ]

/-- Witness for C5: applying the pairing rule at row index 1 of the
3-horizontal / 1-vertical instance, whose vertical side is absent, the
vertical intercepts equal the zero stand-in. -/
theorem c5_pairing_witness :
    rowEx5.vertical_intercepts =
      ((([⟨4, 7⟩] : List LineDataEntry))[1]?.map (fun d => d.intercepts)).getD 0 := by
  have hrow : (buildLineMetrics [⟨1, 10⟩, ⟨2, 10⟩, ⟨0, 10⟩] [⟨4, 7⟩])[1]? = some rowEx5 := by
    norm_num [buildLineMetrics, List.range_succ, rowEx5]
  exact ((c5_pairing_rule.1 [⟨1, 10⟩, ⟨2, 10⟩, ⟨0, 10⟩] [⟨4, 7⟩]).2 1 rowEx5 hrow).2.2.1

/-- C6.  On the component view of the thresholded mask (which does not
depend on `min_area`), increasing `min_area` never increases the tissue
pixel count, and the mask kept at the larger `min_area` is a subset of
the mask kept at the smaller one: every pixel of every surviving
component also survives at the smaller `min_area`. -/
theorem c6_min_area_monotone (components : List (List (ℕ × ℕ))) (a b : ℤ) (hab : a ≤ b) :
    tissuePixelCount (denoisedComponents components b) ≤
      tissuePixelCount (denoisedComponents components a) ∧
    ∀ c ∈ denoisedComponents components b, ∀ p ∈ c,
      ∃ c2, c2 ∈ denoisedComponents components a ∧ p ∈ c2 := by
  have hsub : (denoisedComponents components b).Sublist (denoisedComponents components a) := by
    unfold denoisedComponents remove_small_objects_components
    split_ifs with hb ha
    · apply List.monotone_filter_right
      intro c hc
      simp only [decide_eq_true_eq] at hc ⊢
      omega
    · exact List.filter_sublist components
    · omega
    · exact List.Sublist.refl components
  refine ⟨?_, ?_⟩
  · exact List.Sublist.sum_le_sum (hsub.map List.length) (fun x _ => Nat.zero_le x)
  · intro c hc p hp
    exact ⟨c, hsub.subset hc, hp⟩

/-- Witness for C6: with two components of sizes 2 and 1, raising
`min_area` from 1 to 2 removes the singleton component, and the tissue
pixel count does not increase (it drops from 3 to 2). -/
theorem c6_min_area_witness :
    tissuePixelCount (denoisedComponents [[(0, 0), (0, 1)], [(1, 0)]] 2) ≤
      tissuePixelCount (denoisedComponents [[(0, 0), (0, 1)], [(1, 0)]] 1) :=
  (c6_min_area_monotone [[(0, 0), (0, 1)], [(1, 0)]] 1 2 (by decide)).1

/-- C7.  A failed image read makes the whole run return the
`ImageProcessingError` message `Unable to read image at <path>`; a
failed PNG encode (after a successful read) makes it return
`Unable to encode processed image to PNG`; and under either failure the
run never returns an `Except.ok` metrics value — there is no partial
result. -/
theorem c7_error_propagation {Img Gray : Type} (prims : CvPrims Img Gray) (path : String)
    (config : AnalysisConfigData) :
    (prims.imread path = none →
      run_mli_analysis prims path config =
        Except.error ("Unable to read image at " ++ path)) ∧
    ((∀ im : Img, prims.imencode_png im = none) →
      ∀ img, prims.imread path = some img →
        run_mli_analysis prims path config =
          Except.error "Unable to encode processed image to PNG") ∧
    ((prims.imread path = none ∨ (∀ im : Img, prims.imencode_png im = none)) →
      ∀ m, run_mli_analysis prims path config ≠ Except.ok m) := by
  have h1 : prims.imread path = none →
      run_mli_analysis prims path config =
        Except.error ("Unable to read image at " ++ path) := by
    intro h
    simp [run_mli_analysis, _load_image_and_mask, h]
  have h2 : (∀ im : Img, prims.imencode_png im = none) →
      ∀ img, prims.imread path = some img →
        run_mli_analysis prims path config =
          Except.error "Unable to encode processed image to PNG" := by
    intro henc img hread
    simp [run_mli_analysis, _load_image_and_mask, hread, _encode_image_to_base64, henc]
  refine ⟨h1, h2, ?_⟩
  rintro (h | h) m hok
  · rw [h1 h] at hok
    cases hok
  · cases hr : prims.imread path with
    | none => rw [h1 hr] at hok; cases hok
    | some img => rw [h2 h img hr] at hok; cases hok

/-- Witness for C7: with primitives whose read always fails the run
returns the read error; with primitives whose encode always fails it
returns the encode error. -/
theorem c7_error_propagation_witness :
    run_mli_analysis (unitPrims (fun _ => false) true) "img.png" cfgEx =
      Except.error ("Unable to read image at " ++ "img.png") ∧
    run_mli_analysis (unitPrims (fun _ => true) false) "img.png" cfgEx =
      Except.error "Unable to encode processed image to PNG" := by
  constructor
  · exact (c7_error_propagation (unitPrims (fun _ => false) true) "img.png" cfgEx).1 rfl
  · exact (c7_error_propagation (unitPrims (fun _ => true) false) "img.png" cfgEx).2.1
      (fun im => rfl) () rfl

/-- Counterexample for C8 as stated.  In the `analyze` batch loop of
main.py, a failure on one image aborts the request: with three stored
images of which the second fails to decode, only the first two images
are ever passed to `run_mli_analysis` — the third is not attempted, so
it is false that every image in the batch is attempted. -/
theorem c8_batch_counterexample :
    attemptedImages prims8 (fun _ => true) cfgEx [recA, recB, recC] ≠ [recA, recB, recC] := by
  have h : attemptedImages prims8 (fun _ => true) cfgEx [recA, recB, recC] = [recA, recB] := by
    simp [attemptedImages, recA, recB, run_prims8_ok "pa" (by decide), run_prims8_error]
  rw [h]
  simp

/-- C8 as amended.  In the `analyze` batch loop, when every image before
`img` succeeds (file present and analysis `ok`), `img`'s file is present
and `img`'s analysis raises `ImageProcessingError` with message `e`,
the whole request aborts with that error and exactly the images up to
and including `img` are attempted: the images after `img` are never
passed to `run_mli_analysis`. -/
theorem c8_batch_amended {Img Gray : Type} (prims : CvPrims Img Gray)
    (pathExists : String → Bool) (config : AnalysisConfigData)
    (pre : List ImageRecord) (img : ImageRecord) (rest : List ImageRecord) (e : String)
    (hpre : ∀ r ∈ pre, pathExists r.stored_path = true ∧
      ∃ m, run_mli_analysis prims r.stored_path config = Except.ok m)
    (hexists : pathExists img.stored_path = true)
    (hrun : run_mli_analysis prims img.stored_path config = Except.error e) :
    (∀ start, analyzeLoop prims pathExists config start (pre ++ img :: rest) =
      Except.error e) ∧
    attemptedImages prims pathExists config (pre ++ img :: rest) = pre ++ [img] := by
  induction pre with
  | nil =>
    constructor
    · intro start
      simp [analyzeLoop, hexists, hrun]
    · simp [attemptedImages, hexists, hrun]
  | cons r pre ih =>
    obtain ⟨hre, m, hm⟩ := hpre r (List.mem_cons_self r pre)
    have ih2 := ih (fun x hx => hpre x (List.mem_cons_of_mem _ hx))
    constructor
    · intro start
      rw [List.cons_append]
      simp [analyzeLoop, hre, hm, ih2.1 (start + 1)]
    · rw [List.cons_append]
      simp [attemptedImages, hre, hm, ih2.2]

/-- Witness for the amended C8: for the concrete batch `[recA, recB,
recC]` in which `recB`'s image fails to decode, the loop returns the
read error of `recB` and the attempted images are exactly `[recA,
recB]`. -/
theorem c8_batch_witness :
    analyzeLoop prims8 (fun _ => true) cfgEx 0 [recA, recB, recC] =
      Except.error "Unable to read image at pb" ∧
    attemptedImages prims8 (fun _ => true) cfgEx [recA, recB, recC] = [recA, recB] := by
  have happ := c8_batch_amended prims8 (fun _ => true) cfgEx [recA] recB [recC]
    "Unable to read image at pb"
    (by
      intro r hr
      simp only [List.mem_singleton] at hr
      subst hr
      exact ⟨rfl, mEx, run_prims8_ok "pa" (by decide)⟩)
    rfl
    (by simpa [recB] using run_prims8_error)
  exact ⟨happ.1 0, happ.2⟩

/-- C9.  The orchestrator is a pure function of its inputs: two runs on
the same primitives, path and configuration return equal results, with
in particular identical `LineMetrics` rows and identical average MLI. -/
theorem c9_determinism {Img Gray : Type} (prims : CvPrims Img Gray) (path : String)
    (config : AnalysisConfigData) :
    run_mli_analysis prims path config = run_mli_analysis prims path config ∧
    (run_mli_analysis prims path config).map (fun m => m.lines) =
      (run_mli_analysis prims path config).map (fun m => m.lines) ∧
    (run_mli_analysis prims path config).map (fun m => m.average_mli_um) =
      (run_mli_analysis prims path config).map (fun m => m.average_mli_um) :=
  ⟨rfl, rfl, rfl⟩

/-- C10.  The pipeline never reads `scale_um_per_pixel` or
`magnification`: replacing them by arbitrary values leaves the whole
result of the orchestrator (rows, average and encoded overlays)
unchanged. -/
theorem c10_scale_irrelevance {Img Gray : Type} (prims : CvPrims Img Gray) (path : String)
    (config : AnalysisConfigData) (s : ℚ) (mag : String) :
    run_mli_analysis prims path
      { config with scale_um_per_pixel := s, magnification := mag } =
    run_mli_analysis prims path config := by
  cases config
  rfl

end MLM
